import Mathlib

/-!
Verification of the SmartQ queue subsystem.

The definitions below embed the queue-related route handlers of
`server/routes.ts` (src/unnamed/part_001) together with the schema of
`shared/schema.ts` (src/unnamed/part_000).  The persistence class
`MongoStorage` is not part of the provided sources; its operations are
modelled from the specification's persistence contract (spec §6) and are
marked `Modelled from the spec:` in their doc comments.  Identifiers
(Mongo string ids) are modelled as naturals, creation timestamps as
naturals, and JavaScript numbers as rationals.
-/

namespace SmartQ

/-- Queue entry status, the closed enumeration of `shared/schema.ts`:
`["waiting", "in-progress", "completed", "no-show"]`. -/
inductive Status where
  | waiting
  | inProgress
  | completed
  | noShow
deriving DecidableEq, Repr

/-- A queue entry, after the `queues` table of `shared/schema.ts`:
id, salonId, userId, serviceId, status, position, timestamp and an optional
estimatedWaitTime (minutes). -/
structure QueueEntry where
  id : Nat
  salonId : Nat
  userId : Nat
  serviceId : Nat
  status : Status
  position : Nat
  timestamp : Nat
  estimatedWaitTime : Option Nat
deriving DecidableEq, Repr

/-- A salon, restricted to the fields the queue routes consult. -/
structure Salon where
  id : Nat
  ownerId : Nat
deriving DecidableEq, Repr

/-- A service, restricted to the fields the queue and analytics routes
consult; `price` (a decimal string run through `parseFloat`) is modelled as a
rational. -/
structure Service where
  id : Nat
  salonId : Nat
  duration : Nat
  price : ℚ
deriving DecidableEq, Repr

/-- A review, restricted to the fields the analytics route consults. -/
structure Review where
  salonId : Nat
  userId : Nat
  rating : ℚ
deriving DecidableEq, Repr

/-- Modelled from the spec: the `MongoStorage` queue collection (not under
src/).  Spec §6 requires `listBySalon` to "return entries in stable creation
order", so the collection is modelled as the list of all queue entries in
creation order. -/
abbrev Store := List QueueEntry

/-- Modelled from the spec: `MongoStorage.getQueuesBySalon` — the persistence
primitive `listBySalon(salonId)` of spec §6, returning the salon's entries in
stable creation order. -/
def getQueuesBySalon (store : Store) (salonId : Nat) : List QueueEntry :=
  store.filter (fun q => decide (q.salonId = salonId))

/-- Modelled from the spec: `MongoStorage.getQueuesByUser` — the entries of
one customer, in stable creation order. -/
def getQueuesByUser (store : Store) (userId : Nat) : List QueueEntry :=
  store.filter (fun q => decide (q.userId = userId))

/-- The `waitingQueues` filter used by the salon routes and the
queues-of-current-user route: `queues.filter(q => q.status === 'waiting')`. -/
def waitingQueues (salonQueues : List QueueEntry) : List QueueEntry :=
  salonQueues.filter (fun q => decide (q.status = Status.waiting))

/-- `totalInQueue: waitingQueues.length` of the GET /api/queues/my handler. -/
def totalInQueue (salonQueues : List QueueEntry) : Nat :=
  (waitingQueues salonQueues).length

/-- The position computation of the GET /api/queues/my handler
(src/unnamed/part_001 lines 496-504): start from the stored ticket
`position`; for a `waiting` entry replace it by its index in the salon's
waiting list plus one (when found); for an `in-progress` entry replace it by
the sentinel 0; otherwise leave it unchanged. -/
def myQueuePosition (salonQueues : List QueueEntry) (queue : QueueEntry) : Nat :=
  if queue.status = Status.waiting then
    match (waitingQueues salonQueues).findIdx? (fun q => decide (q.id = queue.id)) with
    | some i => i + 1
    | none => queue.position
  else if queue.status = Status.inProgress then 0
  else queue.position

/-- One element of the GET /api/queues/my response: the entry with its
recomputed position and the salon's waiting count. -/
structure MyQueueView where
  entry : QueueEntry
  position : Nat
  totalInQueue : Nat
deriving DecidableEq, Repr

/-- The GET /api/queues/my handler (src/unnamed/part_001 lines 484-520): for
each of the requesting user's entries, fetch the salon's queue list, recompute
the position and report the waiting count. -/
def getMyQueues (store : Store) (userId : Nat) : List MyQueueView :=
  (getQueuesByUser store userId).map (fun queue =>
    let salonQueues := getQueuesBySalon store queue.salonId
    { entry := queue
      position := myQueuePosition salonQueues queue
      totalInQueue := totalInQueue salonQueues })

/-- The derived queue fields computed by the GET /api/salons handler
(lines 360-375) and the GET /api/salons/:id handler (lines 398-408). -/
structure SalonQueueStats where
  queueCount : Nat
  estimatedWaitTime : Nat
deriving DecidableEq, Repr

/-- GET /api/salons (lines 360-375): per salon, filter its queue entries to
`waiting` and report `queueCount: waitingQueues.length` and
`estimatedWaitTime: waitingQueues.length * 15`. -/
def salonListStats (store : Store) (salonId : Nat) : SalonQueueStats :=
  let queues := getQueuesBySalon store salonId
  { queueCount := (waitingQueues queues).length
    estimatedWaitTime := (waitingQueues queues).length * 15 }

/-- GET /api/salons/:id (lines 398-408): the same two derived fields,
computed the same way. -/
def salonDetailStats (store : Store) (salonId : Nat) : SalonQueueStats :=
  let queues := getQueuesBySalon store salonId
  { queueCount := (waitingQueues queues).length
    estimatedWaitTime := (waitingQueues queues).length * 15 }

/-- The typed failures of the spec's error taxonomy (§7).  The route handlers
under src/ produce `notFound`, `notAuthorized` and `duplicateActiveEntry`;
`invalidTransition` is included so that claims about it can be stated. -/
inductive ApiError where
  | notFound
  | notAuthorized
  | duplicateActiveEntry
  | invalidTransition
deriving DecidableEq, Repr

/-- Modelled from the spec: `MongoStorage.getSalon` — the persistence
primitive `get(id)` of spec §6 over salon records. -/
def getSalon (salons : List Salon) (id : Nat) : Option Salon :=
  (salons.filter (fun s => decide (s.id = id))).head?

/-- Modelled from the spec: `MongoStorage.getUserQueuePosition` — the
customer's active entry for a salon, if any.  Spec §3 states the
at-most-one-active-entry-per-customer-per-salon invariant and §6 exposes
`getMyPosition(customerId, salonId) -> ... | null`, so the lookup returns the
first of the customer's `waiting` or `in-progress` entries for the salon. -/
def getUserQueuePosition (store : Store) (userId salonId : Nat) : Option QueueEntry :=
  (store.filter (fun q => decide (q.userId = userId ∧ q.salonId = salonId ∧
    (q.status = Status.waiting ∨ q.status = Status.inProgress)))).head?

/-- Modelled from the spec: `MongoStorage.createQueue` — spec §3 assigns
`position` at creation as "current count of waiting entries for this salon
+ 1", the entry starts `waiting`, and the store keeps creation order, so the
new entry is appended.  The fresh id and the creation timestamp, produced by
the store, are parameters of the model. -/
def createQueue (store : Store) (userId salonId serviceId freshId now : Nat) :
    Store × QueueEntry :=
  let e : QueueEntry :=
    { id := freshId
      salonId := salonId
      userId := userId
      serviceId := serviceId
      status := Status.waiting
      position := (waitingQueues (getQueuesBySalon store salonId)).length + 1
      timestamp := now
      estimatedWaitTime := none }
  (store ++ [e], e)

/-- The POST /api/queues handler (src/unnamed/part_001 lines 577-600): reject
with `duplicateActiveEntry` when the requester already has a `waiting` or
`in-progress` entry for the salon, otherwise create the entry. -/
def joinQueue (store : Store) (userId salonId serviceId freshId now : Nat) :
    Except ApiError (Store × QueueEntry) :=
  match getUserQueuePosition store userId salonId with
  | some existingQueue =>
      if existingQueue.status = Status.waiting ∨ existingQueue.status = Status.inProgress then
        Except.error ApiError.duplicateActiveEntry
      else
        Except.ok (createQueue store userId salonId serviceId freshId now)
  | none => Except.ok (createQueue store userId salonId serviceId freshId now)

/-- A partial update as accepted by `insertQueueSchema.partial()`: the
insert schema omits `id`, `position` and `timestamp`, so a patch may carry
the remaining fields. -/
structure QueuePatch where
  salonId : Option Nat
  userId : Option Nat
  serviceId : Option Nat
  status : Option Status
  estimatedWaitTime : Option Nat
deriving DecidableEq, Repr

/-- Field-wise application of a patch to a stored entry. -/
def applyPatch (q : QueueEntry) (p : QueuePatch) : QueueEntry :=
  { q with
    salonId := p.salonId.getD q.salonId
    userId := p.userId.getD q.userId
    serviceId := p.serviceId.getD q.serviceId
    status := p.status.getD q.status
    estimatedWaitTime :=
      match p.estimatedWaitTime with
      | some v => some v
      | none => q.estimatedWaitTime }

/-- Modelled from the spec: `MongoStorage.updateQueue` — the persistence
primitive `update(id, patch)` of spec §6, a plain field-wise patch of the
stored entry with no validation. -/
def updateQueue (store : Store) (id : Nat) (p : QueuePatch) : Store :=
  store.map (fun q => if q.id = id then applyPatch q p else q)

/-- Modelled from the spec: `MongoStorage.deleteQueue` — the persistence
primitive `delete(id)` of spec §6. -/
def deleteQueue (store : Store) (id : Nat) : Store :=
  store.filter (fun q => decide (¬ q.id = id))

/-- The PUT /api/queues/:id handler (src/unnamed/part_001 lines 602-626):
look the entry up (404 when absent), authorize — the requester must be the
entry's customer or the owner of the entry's salon — parse the patch, apply
it through the storage update and return the updated entry.  The handler
performs no status-transition validation. -/
def updateQueueRoute (salons : List Salon) (store : Store)
    (entryId requesterId : Nat) (p : QueuePatch) :
    Except ApiError (Store × QueueEntry) :=
  match store.find? (fun q => decide (q.id = entryId)) with
  | none => Except.error ApiError.notFound
  | some queue =>
      if queue.userId ≠ requesterId ∧
          (getSalon salons queue.salonId).map Salon.ownerId ≠ some requesterId then
        Except.error ApiError.notAuthorized
      else
        Except.ok (updateQueue store entryId p, applyPatch queue p)

/-- The DELETE /api/queues/:id handler (src/unnamed/part_001 lines 628-649):
look the entry up (404 when absent), authorize — only the entry's customer
may leave — and delete the entry. -/
def leaveQueue (store : Store) (entryId requesterId : Nat) :
    Except ApiError Store :=
  match store.find? (fun q => decide (q.id = entryId)) with
  | none => Except.error ApiError.notFound
  | some queue =>
      if queue.userId ≠ requesterId then Except.error ApiError.notAuthorized
      else Except.ok (deleteQueue store entryId)

/-- A connected WebSocket client as kept in the handler's `clients` map
(lines 246-272): registered by userId on an `authenticate` message, with its
connection either open or not. -/
structure WsClient where
  userId : Nat
  isOpen : Bool
deriving DecidableEq, Repr

/-- The broadcast payload: `{ type: 'queue_update', salonId, data }` where
`data` is the refreshed list of the salon's entries. -/
structure QueueMessage where
  salonId : Nat
  queues : List QueueEntry
deriving DecidableEq, Repr

/-- `broadcastQueueUpdate` (src/unnamed/part_001 lines 274-279): iterate over
every registered client and send the message to each whose connection is
open (`readyState === OPEN`); a client whose connection is not open is
skipped and iteration continues.  No per-salon filtering is applied. -/
def broadcastQueueUpdate (clients : List WsClient) (salonId : Nat)
    (queues : List QueueEntry) : List (Nat × QueueMessage) :=
  clients.filterMap (fun c =>
    if c.isOpen then some (c.userId, QueueMessage.mk salonId queues) else none)

/-- Follows the spec's words, for comparison with `broadcastQueueUpdate`
(refinement target, not code): "a publish primitive `publish(salonId,
payload)` delivered to all sockets currently marked 'authenticated' for that
salon's viewers" — delivery restricted to the open connections of the
salon's viewers, given a viewers relation. -/
def specPublish (clients : List WsClient) (viewers : Nat → List Nat)
    (salonId : Nat) (queues : List QueueEntry) : List (Nat × QueueMessage) :=
  (clients.filter (fun c => c.isOpen && decide (c.userId ∈ viewers salonId))).map
    (fun c => (c.userId, QueueMessage.mk salonId queues))

/-- The broadcast step of the POST /api/queues handler (lines 592-594): after
a successful create, fetch the salon's refreshed entry list and broadcast it;
on failure nothing is sent. -/
def joinQueueBroadcast (clients : List WsClient) (store : Store)
    (userId salonId serviceId freshId now : Nat) : List (Nat × QueueMessage) :=
  match joinQueue store userId salonId serviceId freshId now with
  | Except.ok (store2, _) =>
      broadcastQueueUpdate clients salonId (getQueuesBySalon store2 salonId)
  | Except.error _ => []

/-- The broadcast step of the PUT /api/queues/:id handler (lines 618-620):
after a successful update, fetch the refreshed list of the updated entry's
salon and broadcast it; on failure nothing is sent. -/
def updateQueueRouteBroadcast (clients : List WsClient) (salons : List Salon)
    (store : Store) (entryId requesterId : Nat) (p : QueuePatch) :
    List (Nat × QueueMessage) :=
  match store.find? (fun q => decide (q.id = entryId)) with
  | none => []
  | some queue =>
      match updateQueueRoute salons store entryId requesterId p with
      | Except.ok (store2, _) =>
          broadcastQueueUpdate clients queue.salonId (getQueuesBySalon store2 queue.salonId)
      | Except.error _ => []

/-- The broadcast step of the DELETE /api/queues/:id handler (lines 641-643):
after a successful delete, fetch the refreshed list of the deleted entry's
salon and broadcast it; on failure nothing is sent. -/
def leaveQueueBroadcast (clients : List WsClient) (store : Store)
    (entryId requesterId : Nat) : List (Nat × QueueMessage) :=
  match store.find? (fun q => decide (q.id = entryId)) with
  | none => []
  | some queue =>
      match leaveQueue store entryId requesterId with
      | Except.ok store2 =>
          broadcastQueueUpdate clients queue.salonId (getQueuesBySalon store2 queue.salonId)
      | Except.error _ => []

/-- The analytics snapshot of the GET /api/analytics/:salonId handler
(lines 769-780); JavaScript numbers are modelled as rationals. -/
structure Analytics where
  customersToday : Nat
  totalCustomers : Nat
  avgWaitTime : ℚ
  rating : ℚ
  showRate : ℚ
  revenue : ℚ
deriving Repr

/-- The analytics computation of the GET /api/analytics/:salonId handler
(src/unnamed/part_001 lines 754-780), applied to the salon's fetched queue,
service and review lists.  `todayStart` stands for the midnight timestamp;
`q.estimatedWaitTime || 15` falls back to 15 when the field is absent or 0,
matching the JavaScript truthiness test. -/
def getAnalytics (queues : List QueueEntry) (services : List Service)
    (reviews : List Review) (todayStart : Nat) : Analytics :=
  let todayQueues := queues.filter (fun q => decide (todayStart ≤ q.timestamp))
  let completedQueues := queues.filter (fun q => decide (q.status = Status.completed))
  let totalRevenue := completedQueues.foldl
    (fun sum q =>
      sum + (match services.find? (fun s => decide (s.id = q.serviceId)) with
        | some s => s.price
        | none => 0)) 0
  { customersToday := todayQueues.length
    totalCustomers := queues.length
    avgWaitTime :=
      if queues.length > 0 then
        (queues.foldl (fun sum q =>
          sum + (match q.estimatedWaitTime with
            | some w => if w = 0 then (15 : ℚ) else (w : ℚ)
            | none => 15)) 0) / (queues.length : ℚ)
      else 0
    rating :=
      if reviews.length > 0 then
        (reviews.foldl (fun sum r => sum + r.rating) 0) / (reviews.length : ℚ)
      else 0
    showRate :=
      if queues.length > 0 then
        ((completedQueues.length : ℚ) / (queues.length : ℚ)) * 100
      else 100
    revenue := totalRevenue }

deriving instance DecidableEq for Except

/-- Folding addition over a list starting from `a` is `a` plus the sum of the
mapped list. -/
theorem foldl_add_eq_sum_map {α : Type} (f : α → ℚ) (l : List α) (a : ℚ) :
    l.foldl (fun sum x => sum + f x) a = a + (l.map f).sum := by
  induction l generalizing a with
  | nil => simp
  | cons x xs ih => simp [ih, add_assoc]

/-- In a list whose `id` projections are pairwise distinct, searching for the
`id` of the `i`-th element finds exactly index `i`. -/
theorem findIdx?_id_get (l : List QueueEntry)
    (h : (l.map QueueEntry.id).Nodup) (i : Nat) (hi : i < l.length) :
    l.findIdx? (fun q => decide (q.id = (l.get ⟨i, hi⟩).id)) = some i := by
  induction l generalizing i with
  | nil => simp at hi
  | cons a as ih =>
      cases i with
      | zero => simp [List.findIdx?_cons]
      | succ n =>
          have hn : n < as.length := by
            simpa using Nat.lt_of_succ_lt_succ hi
          have hmem : (as.get ⟨n, hn⟩).id ∈ as.map QueueEntry.id :=
            List.mem_map_of_mem _ (List.get_mem as n hn)
          have hne : ¬ a.id = (as.get ⟨n, hn⟩).id := by
            intro hcontra
            exact (List.nodup_cons.mp h).1 (hcontra ▸ hmem)
          have h2 : (as.map QueueEntry.id).Nodup := (List.nodup_cons.mp h).2
          have hrec := ih h2 n hn
          simp only [List.get_eq_getElem] at hne hrec ⊢
          simp [List.findIdx?_cons, hne, List.findIdx?_succ, hrec]

/-- C2: a customer whose own entry is `in-progress` is reported by the
queues-of-current-user read path with position 0, the "being served now"
sentinel, not a numeric rank. -/
theorem inProgress_reported_zero (store : Store) (userId : Nat) (v : MyQueueView)
    (hv : v ∈ getMyQueues store userId) (h : v.entry.status = Status.inProgress) :
    v.position = 0 := by
  rcases List.mem_map.mp hv with ⟨q, _, rfl⟩
  simp only at h
  simp [myQueuePosition, h]

/-- C2 witness: in a store holding one `in-progress` entry of user 7, the read
path reports position 0 for it. -/
theorem inProgress_reported_zero_witness :
    (⟨⟨1, 3, 7, 2, Status.inProgress, 1, 0, none⟩, 0, 0⟩ : MyQueueView) ∈
        getMyQueues [⟨1, 3, 7, 2, Status.inProgress, 1, 0, none⟩] 7
    ∧ (⟨⟨1, 3, 7, 2, Status.inProgress, 1, 0, none⟩, 0, 0⟩ : MyQueueView).position = 0 :=
  ⟨by decide, inProgress_reported_zero [⟨1, 3, 7, 2, Status.inProgress, 1, 0, none⟩] 7
    ⟨⟨1, 3, 7, 2, Status.inProgress, 1, 0, none⟩, 0, 0⟩ (by decide) (by decide)⟩

/-- C10: the queues-of-current-user read path returns a `completed` or
`no-show` entry with its stored creation-time ticket `position` unchanged:
neither the live-rank recomputation nor the 0 sentinel applies to
terminal-status entries. -/
theorem terminal_position_unchanged (store : Store) (userId : Nat) (v : MyQueueView)
    (hv : v ∈ getMyQueues store userId)
    (h : v.entry.status = Status.completed ∨ v.entry.status = Status.noShow) :
    v.position = v.entry.position := by
  rcases List.mem_map.mp hv with ⟨q, _, rfl⟩
  simp only at h
  rcases h with h | h <;> simp [myQueuePosition, h]

/-- C10 witness: a `completed` entry with stored ticket position 5 is reported
with position 5. -/
theorem terminal_position_unchanged_witness :
    (⟨⟨1, 3, 7, 2, Status.completed, 5, 0, none⟩, 5, 0⟩ : MyQueueView) ∈
        getMyQueues [⟨1, 3, 7, 2, Status.completed, 5, 0, none⟩] 7
    ∧ (⟨⟨1, 3, 7, 2, Status.completed, 5, 0, none⟩, 5, 0⟩ : MyQueueView).position
      = (⟨⟨1, 3, 7, 2, Status.completed, 5, 0, none⟩, 5, 0⟩ : MyQueueView).entry.position :=
  ⟨by decide, terminal_position_unchanged [⟨1, 3, 7, 2, Status.completed, 5, 0, none⟩] 7
    ⟨⟨1, 3, 7, 2, Status.completed, 5, 0, none⟩, 5, 0⟩ (by decide) (Or.inl (by decide))⟩

/-- C3: both the salon listing and the salon detail operations derive
`queueCount` as the number of the salon's `waiting` entries and
`estimatedWaitTime` as that count times 15 minutes. -/
theorem salon_queue_stats (store : Store) (salonId : Nat) :
    (salonListStats store salonId).queueCount
        = (getQueuesBySalon store salonId).countP (fun q => decide (q.status = Status.waiting))
    ∧ (salonListStats store salonId).estimatedWaitTime
        = (getQueuesBySalon store salonId).countP
            (fun q => decide (q.status = Status.waiting)) * 15
    ∧ salonDetailStats store salonId = salonListStats store salonId := by
  refine ⟨?_, ?_, rfl⟩ <;>
    simp [salonListStats, waitingQueues, List.countP_eq_length_filter]

/-- C1: for every salon, the live positions the read path assigns to the
salon's `waiting` entries (taken in creation order) form the contiguous
sequence `1 .. waitingCount` — each waiting entry's rank is its index in the
waiting-filtered creation-ordered list plus one, and the reported
`totalInQueue` is the length of that list — provided entry ids are unique;
moreover every view produced by the read path carries exactly this computed
position. -/
theorem waiting_ranks_contiguous (store : Store) (salonId : Nat)
    (h : (store.map QueueEntry.id).Nodup) :
    (waitingQueues (getQueuesBySalon store salonId)).map
        (myQueuePosition (getQueuesBySalon store salonId))
      = List.range' 1 (totalInQueue (getQueuesBySalon store salonId))
    ∧ ∀ userId : Nat, ∀ v ∈ getMyQueues store userId,
        v.position = myQueuePosition (getQueuesBySalon store v.entry.salonId) v.entry
        ∧ v.totalInQueue = totalInQueue (getQueuesBySalon store v.entry.salonId) := by
  constructor
  · have hsub : List.Sublist (waitingQueues (getQueuesBySalon store salonId)) store :=
      (List.filter_sublist _).trans (List.filter_sublist _)
    have hnd : ((waitingQueues (getQueuesBySalon store salonId)).map QueueEntry.id).Nodup :=
      h.sublist (hsub.map QueueEntry.id)
    apply List.ext_get
    · simp [totalInQueue]
    · intro i h1 h2
      have hi : i < (waitingQueues (getQueuesBySalon store salonId)).length := by
        simpa using h1
      have hwmem : (waitingQueues (getQueuesBySalon store salonId)).get ⟨i, hi⟩
          ∈ waitingQueues (getQueuesBySalon store salonId) :=
        List.get_mem _ i hi
      have hwait : ((waitingQueues (getQueuesBySalon store salonId)).get ⟨i, hi⟩).status
          = Status.waiting := by
        have := (List.mem_filter.mp hwmem).2
        exact of_decide_eq_true this
      have hfind := findIdx?_id_get _ hnd i hi
      simp only [List.get_eq_getElem] at hfind hwait ⊢
      simp [myQueuePosition, hwait, hfind, List.getElem_range']
      omega
  · intro userId v hv
    rcases List.mem_map.mp hv with ⟨q, _, rfl⟩
    exact ⟨rfl, rfl⟩

/-- C1 witness: a salon-3 store with two `waiting` entries and one
`in-progress` entry between them; the waiting entries are ranked `[1, 2]`. -/
theorem waiting_ranks_contiguous_witness :
    (([⟨1, 3, 5, 2, Status.waiting, 1, 0, none⟩,
       ⟨2, 3, 6, 2, Status.inProgress, 1, 1, none⟩,
       ⟨4, 3, 7, 2, Status.waiting, 2, 2, none⟩] : Store).map QueueEntry.id).Nodup
    ∧ (waitingQueues (getQueuesBySalon
        [⟨1, 3, 5, 2, Status.waiting, 1, 0, none⟩,
         ⟨2, 3, 6, 2, Status.inProgress, 1, 1, none⟩,
         ⟨4, 3, 7, 2, Status.waiting, 2, 2, none⟩] 3)).map
          (myQueuePosition (getQueuesBySalon
            [⟨1, 3, 5, 2, Status.waiting, 1, 0, none⟩,
             ⟨2, 3, 6, 2, Status.inProgress, 1, 1, none⟩,
             ⟨4, 3, 7, 2, Status.waiting, 2, 2, none⟩] 3))
      = List.range' 1 (totalInQueue (getQueuesBySalon
            [⟨1, 3, 5, 2, Status.waiting, 1, 0, none⟩,
             ⟨2, 3, 6, 2, Status.inProgress, 1, 1, none⟩,
             ⟨4, 3, 7, 2, Status.waiting, 2, 2, none⟩] 3)) :=
  ⟨by decide,
    (waiting_ranks_contiguous
      [⟨1, 3, 5, 2, Status.waiting, 1, 0, none⟩,
       ⟨2, 3, 6, 2, Status.inProgress, 1, 1, none⟩,
       ⟨4, 3, 7, 2, Status.waiting, 2, 2, none⟩] 3 (by decide)).1⟩

/-- C6: the analytics `showRate` is `completedCount / totalCustomers * 100`,
where `totalCustomers` counts all of the salon's entries and `completedCount`
those with status `completed`, and it is 100 when there are no entries. -/
theorem showRate_formula (queues : List QueueEntry) (services : List Service)
    (reviews : List Review) (todayStart : Nat) :
    (getAnalytics queues services reviews todayStart).totalCustomers = queues.length
    ∧ (getAnalytics queues services reviews todayStart).showRate
      = if queues.length = 0 then 100
        else ((queues.countP (fun q => decide (q.status = Status.completed))) : ℚ)
              / (queues.length : ℚ) * 100 := by
  refine ⟨rfl, ?_⟩
  by_cases h : queues.length = 0
  · simp [getAnalytics, h]
  · simp [getAnalytics, h, Nat.pos_of_ne_zero h, List.countP_eq_length_filter]

/-- C7: the analytics `revenue` is the sum, over the salon's `completed`
entries, of the referenced service's price, an unresolved service reference
contributing 0. -/
theorem revenue_formula (queues : List QueueEntry) (services : List Service)
    (reviews : List Review) (todayStart : Nat) :
    (getAnalytics queues services reviews todayStart).revenue
      = ((queues.filter (fun q => decide (q.status = Status.completed))).map
          (fun q =>
            match services.find? (fun s => decide (s.id = q.serviceId)) with
            | some s => s.price
            | none => 0)).sum := by
  show (queues.filter (fun q => decide (q.status = Status.completed))).foldl _ 0 = _
  rw [foldl_add_eq_sum_map]
  simp

/-- The broadcast primitive sends the identical message to exactly the open
connections among the registered clients, in registration order. -/
theorem broadcastQueueUpdate_eq (clients : List WsClient)
    (salonId : Nat) (queues : List QueueEntry) :
    broadcastQueueUpdate clients salonId queues
      = (clients.filter (fun c => c.isOpen)).map
          (fun c => (c.userId, QueueMessage.mk salonId queues)) := by
  induction clients with
  | nil => rfl
  | cons c cs ih =>
      by_cases h : c.isOpen = true <;>
        simp [broadcastQueueUpdate, List.filterMap_cons, List.filter_cons, h] <;>
        simpa [broadcastQueueUpdate] using ih

/-- On an existing entry and an authorized requester, the PUT handler applies
the patch and succeeds. -/
theorem updateQueueRoute_ok_aux (salons : List Salon) (store : Store)
    (entryId requesterId : Nat) (p : QueuePatch) (q : QueueEntry)
    (hq : store.find? (fun e => decide (e.id = entryId)) = some q)
    (hauth : q.userId = requesterId
      ∨ (getSalon salons q.salonId).map Salon.ownerId = some requesterId) :
    updateQueueRoute salons store entryId requesterId p
      = Except.ok (updateQueue store entryId p, applyPatch q p) := by
  unfold updateQueueRoute
  rw [hq]
  dsimp only
  rw [if_neg]
  rcases hauth with h | h
  · exact fun hc => hc.1 h
  · exact fun hc => hc.2 h

/-- On an existing entry owned by the requesting customer, the DELETE handler
deletes the entry and succeeds. -/
theorem leaveQueue_ok_aux (store : Store) (entryId requesterId : Nat)
    (q : QueueEntry)
    (hq : store.find? (fun e => decide (e.id = entryId)) = some q)
    (hown : q.userId = requesterId) :
    leaveQueue store entryId requesterId = Except.ok (deleteQueue store entryId) := by
  unfold leaveQueue
  rw [hq]
  dsimp only
  rw [if_neg]
  exact fun hc => hc hown

/-- C9 counterexample: delivery is not restricted to the salon's channel.
A single open client authenticated as user 4 who views no salon at all still
receives the update broadcast for salon 3, whereas the spec's per-salon
publish would deliver it to nobody. -/
theorem broadcast_ignores_salon_channel :
    broadcastQueueUpdate [⟨4, true⟩] 3 [] = [(4, QueueMessage.mk 3 [])]
    ∧ specPublish [⟨4, true⟩] (fun _ => []) 3 [] = [] :=
  ⟨rfl, rfl⟩

/-- C9 amended: after every successful create, update or delete of a queue
entry, the refreshed full list of the affected salon's entries is sent to
every socket currently registered via the authenticate handshake whose
connection is open — regardless of any association with the salon — each
recipient receiving the identical payload, and a client whose connection is
not open being skipped without affecting delivery to the others. -/
theorem broadcast_delivers_to_all_open_clients (clients : List WsClient)
    (storeJ : Store) (userId salonId serviceId freshId now : Nat)
    (storeJ2 : Store) (eJ : QueueEntry)
    (hjoin : joinQueue storeJ userId salonId serviceId freshId now
      = Except.ok (storeJ2, eJ))
    (salons : List Salon) (storeU : Store) (entryIdU requesterIdU : Nat)
    (p : QueuePatch) (qU : QueueEntry)
    (hfindU : storeU.find? (fun e => decide (e.id = entryIdU)) = some qU)
    (hauthU : qU.userId = requesterIdU
      ∨ (getSalon salons qU.salonId).map Salon.ownerId = some requesterIdU)
    (storeL : Store) (entryIdL requesterIdL : Nat) (qL : QueueEntry)
    (hfindL : storeL.find? (fun e => decide (e.id = entryIdL)) = some qL)
    (hownL : qL.userId = requesterIdL) :
    joinQueueBroadcast clients storeJ userId salonId serviceId freshId now
      = (clients.filter (fun c => c.isOpen)).map
          (fun c => (c.userId, QueueMessage.mk salonId (getQueuesBySalon storeJ2 salonId)))
    ∧ updateQueueRouteBroadcast clients salons storeU entryIdU requesterIdU p
      = (clients.filter (fun c => c.isOpen)).map
          (fun c => (c.userId, QueueMessage.mk qU.salonId
              (getQueuesBySalon (updateQueue storeU entryIdU p) qU.salonId)))
    ∧ leaveQueueBroadcast clients storeL entryIdL requesterIdL
      = (clients.filter (fun c => c.isOpen)).map
          (fun c => (c.userId, QueueMessage.mk qL.salonId
              (getQueuesBySalon (deleteQueue storeL entryIdL) qL.salonId))) := by
  refine ⟨?_, ?_, ?_⟩
  · unfold joinQueueBroadcast
    rw [hjoin]
    exact broadcastQueueUpdate_eq clients salonId (getQueuesBySalon storeJ2 salonId)
  · unfold updateQueueRouteBroadcast
    rw [hfindU]
    dsimp only
    rw [updateQueueRoute_ok_aux salons storeU entryIdU requesterIdU p qU hfindU hauthU]
    exact broadcastQueueUpdate_eq clients qU.salonId _
  · unfold leaveQueueBroadcast
    rw [hfindL]
    dsimp only
    rw [leaveQueue_ok_aux storeL entryIdL requesterIdL qL hfindL hownL]
    exact broadcastQueueUpdate_eq clients qL.salonId _

/-- C9 amended witness: two registered clients, one open (user 4) and one
closed (user 5); a join into an empty store, an update and a delete each
broadcast the refreshed salon-3 list to user 4 only. -/
theorem broadcast_delivers_to_all_open_clients_witness :
    joinQueueBroadcast [⟨4, true⟩, ⟨5, false⟩] [] 7 3 2 99 10
      = ([(⟨4, true⟩ : WsClient), ⟨5, false⟩].filter (fun c => c.isOpen)).map
          (fun c => (c.userId, QueueMessage.mk 3
            (getQueuesBySalon [⟨99, 3, 7, 2, Status.waiting, 1, 10, none⟩] 3)))
    ∧ updateQueueRouteBroadcast [⟨4, true⟩, ⟨5, false⟩] [⟨3, 9⟩]
        [⟨1, 3, 7, 2, Status.waiting, 1, 0, none⟩] 1 7
        ⟨none, none, none, some Status.inProgress, none⟩
      = ([(⟨4, true⟩ : WsClient), ⟨5, false⟩].filter (fun c => c.isOpen)).map
          (fun c => (c.userId, QueueMessage.mk 3
            (getQueuesBySalon (updateQueue [⟨1, 3, 7, 2, Status.waiting, 1, 0, none⟩] 1
              ⟨none, none, none, some Status.inProgress, none⟩) 3)))
    ∧ leaveQueueBroadcast [⟨4, true⟩, ⟨5, false⟩]
        [⟨1, 3, 7, 2, Status.waiting, 1, 0, none⟩] 1 7
      = ([(⟨4, true⟩ : WsClient), ⟨5, false⟩].filter (fun c => c.isOpen)).map
          (fun c => (c.userId, QueueMessage.mk 3
            (getQueuesBySalon (deleteQueue [⟨1, 3, 7, 2, Status.waiting, 1, 0, none⟩] 1) 3))) :=
  broadcast_delivers_to_all_open_clients [⟨4, true⟩, ⟨5, false⟩]
    [] 7 3 2 99 10 [⟨99, 3, 7, 2, Status.waiting, 1, 10, none⟩]
    ⟨99, 3, 7, 2, Status.waiting, 1, 10, none⟩ (by decide)
    [⟨3, 9⟩] [⟨1, 3, 7, 2, Status.waiting, 1, 0, none⟩] 1 7
    ⟨none, none, none, some Status.inProgress, none⟩
    ⟨1, 3, 7, 2, Status.waiting, 1, 0, none⟩ (by decide) (Or.inl (by decide))
    [⟨1, 3, 7, 2, Status.waiting, 1, 0, none⟩] 1 7
    ⟨1, 3, 7, 2, Status.waiting, 1, 0, none⟩ (by decide) (by decide)

/-- C5 counterexample: the PUT handler accepts a status change away from a
terminal state.  Entry 1 of salon 3 is `completed`; its customer (user 7)
requests status `waiting`, and the handler succeeds and stores the change
instead of failing with `invalidTransition`. -/
theorem updateStatus_from_completed_succeeds :
    updateQueueRoute [⟨3, 9⟩] [⟨1, 3, 7, 2, Status.completed, 1, 0, none⟩] 1 7
        ⟨none, none, none, some Status.waiting, none⟩
      = Except.ok ([⟨1, 3, 7, 2, Status.waiting, 1, 0, none⟩],
          ⟨1, 3, 7, 2, Status.waiting, 1, 0, none⟩) := by
  decide

/-- C5 amended: the PUT handler validates only existence and authorization —
for an entry found under the requested id and a requester who is the entry's
customer or the salon's owner, any parsed patch is applied unconditionally
(including status changes away from `completed` or `no-show`), and
`invalidTransition` is never produced. -/
theorem updateQueueRoute_applies_patch (salons : List Salon) (store : Store)
    (entryId requesterId : Nat) (p : QueuePatch) (q : QueueEntry)
    (hq : store.find? (fun e => decide (e.id = entryId)) = some q)
    (hauth : q.userId = requesterId
      ∨ (getSalon salons q.salonId).map Salon.ownerId = some requesterId) :
    updateQueueRoute salons store entryId requesterId p
      = Except.ok (updateQueue store entryId p, applyPatch q p) :=
  updateQueueRoute_ok_aux salons store entryId requesterId p q hq hauth

/-- C5 amended witness: the concrete patch of the counterexample goes through
the amended theorem — the `completed` entry exists, user 7 is its customer,
and the patch to `waiting` is applied. -/
theorem updateQueueRoute_applies_patch_witness :
    ([⟨1, 3, 7, 2, Status.completed, 1, 0, none⟩] : Store).find?
        (fun e => decide (e.id = 1)) = some ⟨1, 3, 7, 2, Status.completed, 1, 0, none⟩
    ∧ updateQueueRoute [⟨3, 9⟩] [⟨1, 3, 7, 2, Status.completed, 1, 0, none⟩] 1 7
        ⟨none, none, none, some Status.inProgress, none⟩
      = Except.ok ([⟨1, 3, 7, 2, Status.inProgress, 1, 0, none⟩],
          ⟨1, 3, 7, 2, Status.inProgress, 1, 0, none⟩) :=
  ⟨by decide,
    updateQueueRoute_applies_patch [⟨3, 9⟩] [⟨1, 3, 7, 2, Status.completed, 1, 0, none⟩]
      1 7 ⟨none, none, none, some Status.inProgress, none⟩
      ⟨1, 3, 7, 2, Status.completed, 1, 0, none⟩ (by decide) (Or.inl (by decide))⟩

/-- C4: the POST handler rejects a join with `duplicateActiveEntry` exactly
when the requesting customer already holds a `waiting` or `in-progress` entry
for the target salon (creating nothing), and otherwise succeeds, the created
entry being appended to the store. -/
theorem joinQueue_duplicate_check (store : Store)
    (userId salonId serviceId freshId now : Nat) :
    (joinQueue store userId salonId serviceId freshId now
        = Except.error ApiError.duplicateActiveEntry
      ↔ ∃ q ∈ store, q.userId = userId ∧ q.salonId = salonId ∧
          (q.status = Status.waiting ∨ q.status = Status.inProgress))
    ∧ (createQueue store userId salonId serviceId freshId now).1
        = store ++ [(createQueue store userId salonId serviceId freshId now).2]
    ∧ (joinQueue store userId salonId serviceId freshId now
          ≠ Except.error ApiError.duplicateActiveEntry →
        joinQueue store userId salonId serviceId freshId now
          = Except.ok (createQueue store userId salonId serviceId freshId now)) := by
  cases h : getUserQueuePosition store userId salonId with
  | some e =>
      have hmem : e ∈ store.filter (fun q => decide (q.userId = userId ∧
          q.salonId = salonId ∧
          (q.status = Status.waiting ∨ q.status = Status.inProgress))) :=
        List.mem_of_mem_head? (Option.mem_def.mpr h)
      have hP := of_decide_eq_true (List.mem_filter.mp hmem).2
      have herr : joinQueue store userId salonId serviceId freshId now
          = Except.error ApiError.duplicateActiveEntry := by
        simp [joinQueue, h, hP.2.2]
      refine ⟨⟨fun _ => ⟨e, (List.mem_filter.mp hmem).1, hP⟩, fun _ => herr⟩, rfl, ?_⟩
      intro hne
      exact absurd herr hne
  | none =>
      have hnil : store.filter (fun q => decide (q.userId = userId ∧
          q.salonId = salonId ∧
          (q.status = Status.waiting ∨ q.status = Status.inProgress))) = [] :=
        List.head?_eq_none_iff.mp h
      have hok : joinQueue store userId salonId serviceId freshId now
          = Except.ok (createQueue store userId salonId serviceId freshId now) := by
        simp [joinQueue, h]
      refine ⟨⟨fun herr => ?_, fun hex => ?_⟩, rfl, fun _ => hok⟩
      · rw [hok] at herr
        exact absurd herr (by simp)
      · rcases hex with ⟨q, hq, hPq⟩
        have hqf : q ∈ store.filter (fun q => decide (q.userId = userId ∧
            q.salonId = salonId ∧
            (q.status = Status.waiting ∨ q.status = Status.inProgress))) :=
          List.mem_filter.mpr ⟨hq, decide_eq_true hPq⟩
        rw [hnil] at hqf
        simp at hqf

/-- C4 witness: user 7 already waiting at salon 3 is rejected with
`duplicateActiveEntry`. -/
theorem joinQueue_duplicate_check_witness :
    joinQueue [⟨1, 3, 7, 2, Status.waiting, 1, 0, none⟩] 7 3 2 99 10
      = Except.error ApiError.duplicateActiveEntry :=
  (joinQueue_duplicate_check [⟨1, 3, 7, 2, Status.waiting, 1, 0, none⟩]
    7 3 2 99 10).1.mpr (by decide)

/-- Deleting a freshly appended entry — one whose id occurs nowhere else —
through the DELETE handler restores the store exactly. -/
theorem leaveQueue_append_fresh (store : Store) (eNew : QueueEntry)
    (hfresh : ∀ q ∈ store, q.id ≠ eNew.id) :
    leaveQueue (store ++ [eNew]) eNew.id eNew.userId = Except.ok store := by
  unfold leaveQueue
  have hfind : (store ++ [eNew]).find? (fun q => decide (q.id = eNew.id)) = some eNew := by
    rw [List.find?_append]
    have h1 : store.find? (fun q => decide (q.id = eNew.id)) = none :=
      List.find?_eq_none.mpr (fun x hx => by simp [hfresh x hx])
    rw [h1]
    simp
  rw [hfind]
  dsimp only
  rw [if_neg (by simp)]
  congr 1
  unfold deleteQueue
  rw [List.filter_append]
  have h2 : store.filter (fun q => decide (¬ q.id = eNew.id)) = store :=
    List.filter_eq_self.mpr (fun x hx => by simp [hfresh x hx])
  rw [h2]
  simp

/-- C8: joining a salon and immediately leaving through the DELETE handler
restores the store exactly, so a subsequent `listBySalon` no longer contains
the entry and every other customer's reported rank and waiting count are
those of the original store (the removed entry being the most recent, no
later-ranked entries exist to shift). -/
theorem join_then_leave_roundtrip (store : Store)
    (userId salonId serviceId freshId now : Nat)
    (hfresh : ∀ q ∈ store, q.id ≠ freshId)
    (store2 : Store) (e : QueueEntry)
    (hjoin : joinQueue store userId salonId serviceId freshId now
      = Except.ok (store2, e)) :
    leaveQueue store2 e.id userId = Except.ok store
    ∧ ∀ q ∈ getQueuesBySalon store salonId, q.id ≠ e.id := by
  have hcreate : store2 = (createQueue store userId salonId serviceId freshId now).1
      ∧ e = (createQueue store userId salonId serviceId freshId now).2 := by
    unfold joinQueue at hjoin
    cases h : getUserQueuePosition store userId salonId with
    | some ex =>
        rw [h] at hjoin
        dsimp only at hjoin
        by_cases hc : ex.status = Status.waiting ∨ ex.status = Status.inProgress
        · rw [if_pos hc] at hjoin
          simp at hjoin
        · rw [if_neg hc] at hjoin
          injection hjoin with h2
          exact ⟨(congrArg Prod.fst h2).symm, (congrArg Prod.snd h2).symm⟩
    | none =>
        rw [h] at hjoin
        dsimp only at hjoin
        injection hjoin with h2
        exact ⟨(congrArg Prod.fst h2).symm, (congrArg Prod.snd h2).symm⟩
  obtain ⟨hs2, he⟩ := hcreate
  subst hs2
  subst he
  constructor
  · exact leaveQueue_append_fresh store _ (fun q hq => hfresh q hq)
  · intro q hq
    have hqs : q ∈ store := (List.mem_filter.mp hq).1
    exact hfresh q hqs

/-- C8 witness: user 7 joins salon 3 (one other customer waiting) and leaves
immediately; the store returns to its previous single-entry state. -/
theorem join_then_leave_roundtrip_witness :
    joinQueue [⟨1, 3, 5, 2, Status.waiting, 1, 0, none⟩] 7 3 2 99 10
      = Except.ok ([⟨1, 3, 5, 2, Status.waiting, 1, 0, none⟩,
          ⟨99, 3, 7, 2, Status.waiting, 2, 10, none⟩],
          ⟨99, 3, 7, 2, Status.waiting, 2, 10, none⟩)
    ∧ leaveQueue [⟨1, 3, 5, 2, Status.waiting, 1, 0, none⟩,
          ⟨99, 3, 7, 2, Status.waiting, 2, 10, none⟩] 99 7
      = Except.ok [⟨1, 3, 5, 2, Status.waiting, 1, 0, none⟩] :=
  ⟨by decide,
    (join_then_leave_roundtrip [⟨1, 3, 5, 2, Status.waiting, 1, 0, none⟩] 7 3 2 99 10
      (by decide)
      [⟨1, 3, 5, 2, Status.waiting, 1, 0, none⟩, ⟨99, 3, 7, 2, Status.waiting, 2, 10, none⟩]
      ⟨99, 3, 7, 2, Status.waiting, 2, 10, none⟩ (by decide)).1⟩

end SmartQ
